import Mathlib

/-!
Verification of the temporal compositing notebook `STAC/Generating_composites.ipynb`.

The repository's only original algorithmic logic is the Temporal Nearest-Value
Resolver (`first` / `last` / `nearest` composites).  The notebook calls these
functions from the external `dea_tools.datahandling` library, whose code is not
part of this repository, so the resolver itself is modelled from the spec
(definitions marked `Modelled from the spec:`).  The cloud-masking step
(`data_clean = data.where(data.qa_pixel.isin(mask_val) == False)`) and the
no-data masking step (`no_data_mask = da.isnull().any(dim='variable');
da = da.where(~no_data_mask)`) are code of the notebook itself and are embedded
directly from it.

Representation choices: a raster grid is a list of rows; an invalid (null /
NaN-masked) measurement is `none`, a valid one `some v` (the spec's validity
mask is `Option.isSome`); timestamps are integers.
-/

namespace Composites

/-- A 2-D raster grid of per-pixel measurements; `none` marks an invalid pixel. -/
abbrev Grid := List (List (Option Int))

/-- Modelled from the spec: the resolver's selection mode (`FIRST`, `LAST`,
`NEAREST`); the implementations live in the external `dea_tools` library. -/
inductive Mode where
  | FIRST
  | LAST
  | NEAREST
deriving DecidableEq, Repr

/-- Modelled from the spec: one timestamped layer of the observation stack. -/
structure Layer where
  ts : Int
  grid : Grid
deriving DecidableEq, Repr

/-- Modelled from the spec: the resolver's failure modes. -/
inductive ResolverError where
  | ShapeMismatchError
  | MissingParameterError
deriving DecidableEq, Repr

/-- Modelled from the spec: a result grid paired with the grid of the
timestamps the values were drawn from. -/
structure ResolveResult where
  values : Grid
  timestamps : Grid
deriving DecidableEq, Repr

/-- The shape of a grid: the list of its row lengths. -/
def layerShape (g : Grid) : List Nat := g.map List.length

/-- All layers share the shape of the first layer. -/
def sameShapes : List Layer → Bool
  | [] => true
  | L :: rest => rest.all fun M => layerShape M.grid == layerShape L.grid

/-- The value of grid `g` at row `i`, column `j`; out-of-range reads are invalid. -/
def gridAt (g : Grid) (i j : Nat) : Option Int := (g.getD i []).getD j none

/-- The per-pixel view of the observation stack at pixel `(i, j)`:
the list of `(timestamp, optional value)` pairs, one per layer, in stack order. -/
def pixelObs (layers : List Layer) (i j : Nat) : List (Int × Option Int) :=
  layers.map fun L => (L.ts, gridAt L.grid i j)

/-- Modelled from the spec: `FIRST` per-pixel — scan in stack (ascending
timestamp) order and take the first valid entry. -/
def firstValid : List (Int × Option Int) → Option (Int × Int)
  | [] => none
  | (t, some v) :: _ => some (t, v)
  | (_, none) :: rest => firstValid rest

/-- Modelled from the spec: `LAST` per-pixel — keep the most recent valid
entry while scanning in stack (ascending timestamp) order. -/
def lastValid : List (Int × Option Int) → Option (Int × Int)
  | [] => none
  | (t, some v) :: rest =>
    match lastValid rest with
    | none => some (t, v)
    | some p => some p
  | (_, none) :: rest => lastValid rest

/-- Modelled from the spec: `NEAREST` per-pixel — among valid entries,
minimise `|timestamp − ref|`; a later entry replaces the current choice only
when strictly closer, so on a tie the earlier entry wins. -/
def nearestValid (ref : Int) : List (Int × Option Int) → Option (Int × Int)
  | [] => none
  | (t, some v) :: rest =>
    match nearestValid ref rest with
    | none => some (t, v)
    | some (u, w) => if |u - ref| < |t - ref| then some (u, w) else some (t, v)
  | (_, none) :: rest => nearestValid ref rest

/-- Modelled from the spec: the per-pixel resolver for a given mode. -/
def resolvePixel (mode : Mode) (ref : Int) (obs : List (Int × Option Int)) :
    Option (Int × Int) :=
  match mode with
  | .FIRST => firstValid obs
  | .LAST => lastValid obs
  | .NEAREST => nearestValid ref obs

/-- The resolver's choice (timestamp, value) at pixel `(i, j)`. -/
def resolvedAt (mode : Mode) (ref : Int) (layers : List Layer) (i j : Nat) :
    Option (Int × Int) :=
  resolvePixel mode ref (pixelObs layers i j)

/-- An all-invalid grid of `h` rows and `w` columns. -/
def allInvalid (h w : Nat) : Grid :=
  List.replicate h (List.replicate w (none : Option Int))

/-- Modelled from the spec: the Temporal Nearest-Value Resolver.  `eh × ew` is
the caller-supplied shape used by the documented empty-result policy.  Shape
consistency is checked first; `NEAREST` requires a `reference_time`; the empty
stack yields an all-invalid result; otherwise each pixel is resolved
independently and the result shape is the first layer's shape. -/
def resolve (mode : Mode) (ref? : Option Int) (eh ew : Nat)
    (layers : List Layer) : Except ResolverError ResolveResult :=
  if sameShapes layers = false then .error .ShapeMismatchError
  else if mode = Mode.NEAREST ∧ ref? = none then .error .MissingParameterError
  else
    match layers with
    | [] => .ok ⟨allInvalid eh ew, allInvalid eh ew⟩
    | L :: _ =>
      let r := ref?.getD 0
      .ok ⟨(List.range L.grid.length).map fun i =>
             (List.range ((L.grid.getD i []).length)).map fun j =>
               (resolvedAt mode r layers i j).map Prod.snd,
           (List.range L.grid.length).map fun i =>
             (List.range ((L.grid.getD i []).length)).map fun j =>
               (resolvedAt mode r layers i j).map Prod.fst⟩

/-! ### Cloud masking (notebook cell: `data_clean = data.where(...)`) -/

/-- A 3-D array over dimensions (time, y, x); `none` marks a null value. -/
abbrev Arr3 := List (List (List (Option Int)))

/-- The value of a 3-D array at `(t, y, x)`; out-of-range reads are null. -/
def arrAt (a : Arr3) (t y x : Nat) : Option Int :=
  ((a.getD t []).getD y []).getD x none

/-- The `qa_pixel` flag values treated as invalid, from the notebook:
`mask_val = [21762, 21890, 21952, 22018, 22080, 22280, 23826, 23888, 24082, 24144, 55052]`. -/
def mask_val : List Nat :=
  [21762, 21890, 21952, 22018, 22080, 22280, 23826, 23888, 24082, 24144, 55052]

/-- A loaded dataset: the `qa_pixel` quality band and the named measurement
bands, each a dense (time, y, x) array.  Loaded measurements are plain integers
(the loader produces no nulls; nulls appear only through masking). -/
structure RawData where
  qa_pixel : List (List (List Nat))
  bands : List (String × List (List (List Int)))
deriving Repr

/-- The `qa_pixel` value at `(t, y, x)`. -/
def qaAt (d : RawData) (t y x : Nat) : Nat :=
  ((d.qa_pixel.getD t []).getD y []).getD x 0

/-- The loaded value of one band at `(t, y, x)`. -/
def bandAt (b : List (List (List Int))) (t y x : Nat) : Int :=
  ((b.getD t []).getD y []).getD x 0

/-- Embeds `band.where(data.qa_pixel.isin(mask_val) == False)`: keep a value
where its slot's `qa_pixel` value is not in `mask_val`, else null. -/
def cloudMaskBand (qa : List (List (List Nat))) (b : List (List (List Int))) :
    Arr3 :=
  (List.range b.length).map fun t =>
    (List.range ((b.getD t []).length)).map fun y =>
      (List.range (((b.getD t []).getD y []).length)).map fun x =>
        if ((qa.getD t []).getD y []).getD x 0 ∈ mask_val then none
        else some (((b.getD t []).getD y []).getD x 0)

/-- Embeds `data_clean = data.where(data.qa_pixel.isin(mask_val) == False)`:
every band masked by the shared `qa_pixel` condition. -/
def data_clean (d : RawData) : List (String × Arr3) :=
  d.bands.map fun nb => (nb.1, cloudMaskBand d.qa_pixel nb.2)

/-! ### No-data masking (notebook cell: `no_data_mask = da.isnull().any(...)`) -/

/-- Embeds `da.isnull()` at one slot: whether the value is null. -/
def isnullAt (a : Arr3) (t y x : Nat) : Bool := (arrAt a t y x).isNone

/-- Embeds `no_data_mask = da.isnull().any(dim='variable')`: true at `(t, y, x)`
when any variable is null there. -/
def no_data_mask (vars : List Arr3) (t y x : Nat) : Bool :=
  vars.any fun a => isnullAt a t y x

/-- Embeds `da = da.where(~no_data_mask)` for one variable of the stacked
array: null out every slot where some variable is null. -/
def maskVar (vars : List Arr3) (a : Arr3) : Arr3 :=
  (List.range a.length).map fun t =>
    (List.range ((a.getD t []).length)).map fun y =>
      (List.range (((a.getD t []).getD y []).length)).map fun x =>
        if no_data_mask vars t y x then none else arrAt a t y x

/-- Embeds `da = da.where(~no_data_mask)` for the whole stacked array. -/
def maskNoData (vars : List Arr3) : List Arr3 := vars.map (maskVar vars)

/-- The per-pixel time series of one 3-D variable at pixel `(y, x)`, paired
with the stack's timestamps (the input to a per-band temporal reduction). -/
def bandObs (ts : List Int) (a : Arr3) (y x : Nat) : List (Int × Option Int) :=
  (List.range ts.length).map fun t => (ts.getD t 0, arrAt a t y x)

/-! ### Helper lemmas -/

theorem getD_range_map {α : Type} (n : Nat) (f : Nat → α) (i : Nat) (d : α) :
    ((List.range n).map f).getD i d = if i < n then f i else d := by
  by_cases h : i < n
  · rw [List.getD_eq_getElem _ _ (by simpa using h)]
    simp [h]
  · rw [List.getD_eq_default _ _ (by simpa using Nat.le_of_not_lt h)]
    simp [h]

theorem getD_replicate {α : Type} (n : Nat) (a : α) (i : Nat) (d : α) :
    (List.replicate n a).getD i d = if i < n then a else d := by
  by_cases h : i < n
  · rw [List.getD_eq_getElem _ _ (by simpa using h)]
    simp [h]
  · rw [List.getD_eq_default _ _ (by simpa using Nat.le_of_not_lt h)]
    simp [h]

theorem firstValid_of_all_none {obs : List (Int × Option Int)}
    (h : ∀ p ∈ obs, p.2 = none) : firstValid obs = none := by
  induction obs with
  | nil => rfl
  | cons a rest ih =>
    obtain ⟨t, x⟩ := a
    cases x with
    | none => exact ih fun p hp => h p (List.mem_cons_of_mem _ hp)
    | some v => exact absurd (h (t, some v) (List.mem_cons_self _ _)) (by simp)

theorem lastValid_of_all_none {obs : List (Int × Option Int)}
    (h : ∀ p ∈ obs, p.2 = none) : lastValid obs = none := by
  induction obs with
  | nil => rfl
  | cons a rest ih =>
    obtain ⟨t, x⟩ := a
    cases x with
    | none => exact ih fun p hp => h p (List.mem_cons_of_mem _ hp)
    | some v => exact absurd (h (t, some v) (List.mem_cons_self _ _)) (by simp)

theorem nearestValid_of_all_none {ref : Int} {obs : List (Int × Option Int)}
    (h : ∀ p ∈ obs, p.2 = none) : nearestValid ref obs = none := by
  induction obs with
  | nil => rfl
  | cons a rest ih =>
    obtain ⟨t, x⟩ := a
    cases x with
    | none => exact ih fun p hp => h p (List.mem_cons_of_mem _ hp)
    | some v => exact absurd (h (t, some v) (List.mem_cons_self _ _)) (by simp)

theorem firstValid_eq_none {obs : List (Int × Option Int)}
    (h : firstValid obs = none) : ∀ p ∈ obs, p.2 = none := by
  induction obs with
  | nil => simp
  | cons a rest ih =>
    obtain ⟨t, x⟩ := a
    cases x with
    | none =>
      intro p hp
      rcases List.mem_cons.1 hp with hp | hp
      · simp [hp]
      · exact ih h p hp
    | some v => simp [firstValid] at h

theorem lastValid_eq_none {obs : List (Int × Option Int)}
    (h : lastValid obs = none) : ∀ p ∈ obs, p.2 = none := by
  induction obs with
  | nil => simp
  | cons a rest ih =>
    obtain ⟨t, x⟩ := a
    cases x with
    | none =>
      intro p hp
      rcases List.mem_cons.1 hp with hp | hp
      · simp [hp]
      · exact ih h p hp
    | some v =>
      simp only [lastValid] at h
      cases hrest : lastValid rest with
      | none => rw [hrest] at h; simp at h
      | some p => rw [hrest] at h; simp at h

theorem nearestValid_eq_none {ref : Int} {obs : List (Int × Option Int)}
    (h : nearestValid ref obs = none) : ∀ p ∈ obs, p.2 = none := by
  induction obs with
  | nil => simp
  | cons a rest ih =>
    obtain ⟨t, x⟩ := a
    cases x with
    | none =>
      intro p hp
      rcases List.mem_cons.1 hp with hp | hp
      · simp [hp]
      · exact ih h p hp
    | some v =>
      simp only [nearestValid] at h
      cases hrest : nearestValid ref rest with
      | none => rw [hrest] at h; simp at h
      | some p =>
        obtain ⟨u, w⟩ := p
        rw [hrest] at h
        by_cases hc : |u - ref| < |t - ref| <;> simp [hc] at h

theorem firstValid_min {obs : List (Int × Option Int)}
    (hs : List.Pairwise (· ≤ ·) (obs.map Prod.fst)) {t : Int} {v : Int}
    (he : firstValid obs = some (t, v)) :
    (t, some v) ∈ obs ∧ ∀ p ∈ obs, p.2.isSome = true → t ≤ p.1 := by
  induction obs with
  | nil => simp [firstValid] at he
  | cons a rest ih =>
    obtain ⟨t0, x⟩ := a
    rw [List.map_cons, List.pairwise_cons] at hs
    cases x with
    | some v0 =>
      simp only [firstValid, Option.some.injEq, Prod.mk.injEq] at he
      obtain ⟨rfl, rfl⟩ := he
      refine ⟨List.mem_cons_self _ _, ?_⟩
      intro p hp _
      rcases List.mem_cons.1 hp with hp | hp
      · simp [hp]
      · exact hs.1 p.1 (List.mem_map_of_mem _ hp)
    | none =>
      obtain ⟨hmem, hmin⟩ := ih hs.2 he
      refine ⟨List.mem_cons_of_mem _ hmem, ?_⟩
      intro p hp hv
      rcases List.mem_cons.1 hp with hp | hp
      · rw [hp] at hv; simp at hv
      · exact hmin p hp hv

theorem lastValid_max {obs : List (Int × Option Int)}
    (hs : List.Pairwise (· ≤ ·) (obs.map Prod.fst)) {t : Int} {v : Int}
    (he : lastValid obs = some (t, v)) :
    (t, some v) ∈ obs ∧ ∀ p ∈ obs, p.2.isSome = true → p.1 ≤ t := by
  induction obs with
  | nil => simp [lastValid] at he
  | cons a rest ih =>
    obtain ⟨t0, x⟩ := a
    rw [List.map_cons, List.pairwise_cons] at hs
    cases x with
    | some v0 =>
      simp only [lastValid] at he
      cases hrest : lastValid rest with
      | none =>
        rw [hrest] at he
        simp only [Option.some.injEq, Prod.mk.injEq] at he
        obtain ⟨rfl, rfl⟩ := he
        refine ⟨List.mem_cons_self _ _, ?_⟩
        intro p hp hv
        rcases List.mem_cons.1 hp with hp | hp
        · simp [hp]
        · rw [lastValid_eq_none hrest p hp] at hv; simp at hv
      | some q =>
        rw [hrest] at he
        simp only [Option.some.injEq] at he
        obtain ⟨hmem, hmax⟩ := ih hs.2 (by rw [hrest, he])
        refine ⟨List.mem_cons_of_mem _ hmem, ?_⟩
        intro p hp hv
        rcases List.mem_cons.1 hp with hp | hp
        · rw [hp]
          exact hs.1 t (List.mem_map_of_mem Prod.fst hmem)
        · exact hmax p hp hv
    | none =>
      obtain ⟨hmem, hmax⟩ := ih hs.2 he
      refine ⟨List.mem_cons_of_mem _ hmem, ?_⟩
      intro p hp hv
      rcases List.mem_cons.1 hp with hp | hp
      · rw [hp] at hv; simp at hv
      · exact hmax p hp hv

theorem nearestValid_min (ref : Int) :
    ∀ (obs : List (Int × Option Int)) (t v : Int),
      nearestValid ref obs = some (t, v) →
      (t, some v) ∈ obs ∧
        ∀ p ∈ obs, p.2.isSome = true → |t - ref| ≤ |p.1 - ref| := by
  intro obs
  induction obs with
  | nil => intro t v he; simp [nearestValid] at he
  | cons a rest ih =>
    intro t v he
    obtain ⟨t0, x⟩ := a
    cases x with
    | some v0 =>
      simp only [nearestValid] at he
      cases hrest : nearestValid ref rest with
      | none =>
        rw [hrest] at he
        simp only [Option.some.injEq, Prod.mk.injEq] at he
        obtain ⟨rfl, rfl⟩ := he
        refine ⟨List.mem_cons_self _ _, ?_⟩
        intro p hp hv
        rcases List.mem_cons.1 hp with hp | hp
        · simp [hp]
        · rw [nearestValid_eq_none hrest p hp] at hv; simp at hv
      | some q =>
        obtain ⟨u, w⟩ := q
        rw [hrest] at he
        obtain ⟨humem, humin⟩ := ih u w hrest
        by_cases hc : |u - ref| < |t0 - ref|
        · simp only [if_pos hc, Option.some.injEq, Prod.mk.injEq] at he
          obtain ⟨rfl, rfl⟩ := he
          refine ⟨List.mem_cons_of_mem _ humem, ?_⟩
          intro p hp hv
          rcases List.mem_cons.1 hp with hp | hp
          · rw [hp]; exact le_of_lt hc
          · exact humin p hp hv
        · simp only [if_neg hc, Option.some.injEq, Prod.mk.injEq] at he
          obtain ⟨rfl, rfl⟩ := he
          refine ⟨List.mem_cons_self _ _, ?_⟩
          intro p hp hv
          rcases List.mem_cons.1 hp with hp | hp
          · simp [hp]
          · exact le_trans (le_of_not_lt hc) (humin p hp hv)
    | none =>
      obtain ⟨hmem, hmin⟩ := ih t v he
      refine ⟨List.mem_cons_of_mem _ hmem, ?_⟩
      intro p hp hv
      rcases List.mem_cons.1 hp with hp | hp
      · rw [hp] at hv; simp at hv
      · exact hmin p hp hv

theorem firstValid_isSome {obs : List (Int × Option Int)}
    (h : ∃ p ∈ obs, p.2.isSome = true) :
    ∃ t v, firstValid obs = some (t, v) := by
  cases he : firstValid obs with
  | none =>
    obtain ⟨p, hp, hv⟩ := h
    rw [firstValid_eq_none he p hp] at hv
    simp at hv
  | some q => exact ⟨q.1, q.2, by simp [he]⟩

theorem lastValid_isSome {obs : List (Int × Option Int)}
    (h : ∃ p ∈ obs, p.2.isSome = true) :
    ∃ t v, lastValid obs = some (t, v) := by
  cases he : lastValid obs with
  | none =>
    obtain ⟨p, hp, hv⟩ := h
    rw [lastValid_eq_none he p hp] at hv
    simp at hv
  | some q => exact ⟨q.1, q.2, by simp [he]⟩

theorem nearestValid_isSome (ref : Int) {obs : List (Int × Option Int)}
    (h : ∃ p ∈ obs, p.2.isSome = true) :
    ∃ t v, nearestValid ref obs = some (t, v) := by
  cases he : nearestValid ref obs with
  | none =>
    obtain ⟨p, hp, hv⟩ := h
    rw [nearestValid_eq_none he p hp] at hv
    simp at hv
  | some q => exact ⟨q.1, q.2, by simp [he]⟩

/-- The function `nearestValid` keeps the first entry attaining the minimal time distance:
if everything valid before the entry is strictly farther from `ref` and
everything valid after is no closer, that entry is selected. -/
theorem nearestValid_append (ref t1 v1 : Int)
    (pre post : List (Int × Option Int))
    (hpre : ∀ p ∈ pre, p.2.isSome = true → |t1 - ref| < |p.1 - ref|)
    (hpost : ∀ p ∈ post, p.2.isSome = true → |t1 - ref| ≤ |p.1 - ref|) :
    nearestValid ref (pre ++ (t1, some v1) :: post) = some (t1, v1) := by
  induction pre with
  | nil =>
    simp only [List.nil_append, nearestValid]
    cases hrest : nearestValid ref post with
    | none => rfl
    | some q =>
      obtain ⟨u, w⟩ := q
      obtain ⟨humem, -⟩ := nearestValid_min ref post u w hrest
      have hle : |t1 - ref| ≤ |u - ref| := hpost (u, some w) humem (by simp)
      simp [not_lt_of_le hle]
  | cons a pre' ih =>
    obtain ⟨t0, x⟩ := a
    have ih' := ih fun p hp hv => hpre p (List.mem_cons_of_mem _ hp) hv
    cases x with
    | none => simpa [nearestValid] using ih'
    | some v0 =>
      have hlt : |t1 - ref| < |t0 - ref| :=
        hpre (t0, some v0) (List.mem_cons_self _ _) (by simp)
      simp only [List.cons_append, nearestValid, List.append_eq, ih', if_pos hlt]

/-- The timestamps of the per-pixel observation list are the layer timestamps. -/
theorem pixelObs_map_fst (layers : List Layer) (i j : Nat) :
    (pixelObs layers i j).map Prod.fst = layers.map Layer.ts := by
  simp only [pixelObs, List.map_map]
  rfl

theorem resolvePixel_of_all_none {mode : Mode} {ref : Int}
    {obs : List (Int × Option Int)} (h : ∀ p ∈ obs, p.2 = none) :
    resolvePixel mode ref obs = none := by
  cases mode with
  | FIRST => exact firstValid_of_all_none h
  | LAST => exact lastValid_of_all_none h
  | NEAREST => exact nearestValid_of_all_none h

theorem gridAt_allInvalid (h w i j : Nat) : gridAt (allInvalid h w) i j = none := by
  unfold gridAt allInvalid
  rw [getD_replicate]
  by_cases hi : i < h
  · rw [if_pos hi, getD_replicate]
    by_cases hj : j < w
    · rw [if_pos hj]
    · rw [if_neg hj]
  · rw [if_neg hi]
    rfl

/-- On a non-empty shape-consistent stack the resolver succeeds, and each
pixel of the value grid and of the timestamp grid is the corresponding
projection of the independent per-pixel resolution. -/
theorem resolve_ok_at (mode : Mode) (ref? : Option Int) (eh ew : Nat)
    (L : Layer) (rest : List Layer)
    (hshape : sameShapes (L :: rest) = true)
    (href : ¬(mode = Mode.NEAREST ∧ ref? = none)) :
    ∃ res, resolve mode ref? eh ew (L :: rest) = .ok res ∧
      ∀ i j,
        gridAt res.values i j =
          (if i < L.grid.length ∧ j < (L.grid.getD i []).length then
            (resolvedAt mode (ref?.getD 0) (L :: rest) i j).map Prod.snd
          else none) ∧
        gridAt res.timestamps i j =
          (if i < L.grid.length ∧ j < (L.grid.getD i []).length then
            (resolvedAt mode (ref?.getD 0) (L :: rest) i j).map Prod.fst
          else none) := by
  refine ⟨⟨(List.range L.grid.length).map fun i =>
             (List.range ((L.grid.getD i []).length)).map fun j =>
               (resolvedAt mode (ref?.getD 0) (L :: rest) i j).map Prod.snd,
           (List.range L.grid.length).map fun i =>
             (List.range ((L.grid.getD i []).length)).map fun j =>
               (resolvedAt mode (ref?.getD 0) (L :: rest) i j).map Prod.fst⟩,
         ?_, ?_⟩
  · unfold resolve
    rw [if_neg (by simp [hshape]), if_neg href]
  · intro i j
    constructor <;>
    · simp only [gridAt]
      rw [getD_range_map]
      by_cases hi : i < L.grid.length
      · rw [if_pos hi, getD_range_map]
        by_cases hj : j < (L.grid.getD i []).length
        · rw [if_pos hj, if_pos ⟨hi, hj⟩]
        · rw [if_neg hj, if_neg (fun hc => hj hc.2)]
      · rw [if_neg hi, if_neg (fun hc => hi hc.1)]
        rfl

/-! ### Claims about the Temporal Nearest-Value Resolver (spec-modelled) -/

/-- Claim C1: in `NEAREST` mode, at every pixel where at least one layer is
valid, the resolver returns a valid layer's value together with its timestamp,
and that timestamp minimises the absolute difference to the caller-supplied
reference time over all layer timestamps valid at that pixel.  (`resolve`
writes exactly this pair's components into the result value grid and the
result timestamp grid, see `resolve_ok_at`.) -/
theorem C1_nearest_minimizes (layers : List Layer) (ref : Int) (i j : Nat)
    (h : ∃ p ∈ pixelObs layers i j, p.2.isSome = true) :
    ∃ t v, resolvedAt Mode.NEAREST ref layers i j = some (t, v) ∧
      (t, some v) ∈ pixelObs layers i j ∧
      ∀ p ∈ pixelObs layers i j, p.2.isSome = true →
        |t - ref| ≤ |p.1 - ref| := by
  obtain ⟨t, v, he⟩ := nearestValid_isSome ref h
  obtain ⟨hmem, hmin⟩ := nearestValid_min ref _ t v he
  exact ⟨t, v, he, hmem, hmin⟩

/-- Claim C2: in `NEAREST` mode, at a pixel where the valid layers at
timestamps `t1 < ref < t2` are exactly equidistant from the reference time and
every other valid layer is strictly farther, the resolver selects the earlier
layer's value and timestamp (earlier-wins tie-break). -/
theorem C2_tie_prefers_earlier (layers : List Layer) (ref t1 t2 v1 v2 : Int)
    (i j : Nat)
    (hsorted : List.Chain' (· < ·) (layers.map Layer.ts))
    (h1 : (t1, some v1) ∈ pixelObs layers i j)
    (_h2 : (t2, some v2) ∈ pixelObs layers i j)
    (_hlt : t1 < ref) (hgt : ref < t2) (heq : ref - t1 = t2 - ref)
    (hmin : ∀ p ∈ pixelObs layers i j, p.2.isSome = true →
      p.1 = t1 ∨ p.1 = t2 ∨ ref - t1 < |p.1 - ref|) :
    resolvedAt Mode.NEAREST ref layers i j = some (t1, v1) := by
  have habs1 : |t1 - ref| = ref - t1 := by
    rw [abs_of_neg (by omega : t1 - ref < 0)]; omega
  have habs2 : |t2 - ref| = ref - t1 := by
    rw [abs_of_pos (by omega : (0 : Int) < t2 - ref)]; omega
  have hpw : List.Pairwise (· < ·) ((pixelObs layers i j).map Prod.fst) := by
    rw [pixelObs_map_fst]
    exact List.chain'_iff_pairwise.mp hsorted
  obtain ⟨pre, post, hsplit⟩ := List.append_of_mem h1
  rw [hsplit, List.map_append, List.map_cons] at hpw
  obtain ⟨hpw_pre, hpw_cons, hrel⟩ := List.pairwise_append.mp hpw
  show nearestValid ref (pixelObs layers i j) = some (t1, v1)
  rw [hsplit]
  apply nearestValid_append
  · intro p hp hv
    have hplt : p.1 < t1 :=
      hrel p.1 (List.mem_map_of_mem _ hp) t1 (List.mem_cons_self _ _)
    have hpmem : p ∈ pixelObs layers i j := by
      rw [hsplit]; exact List.mem_append_left _ hp
    rw [habs1]
    rcases hmin p hpmem hv with h | h | h
    · omega
    · omega
    · exact h
  · intro p hp hv
    have hpgt : t1 < p.1 :=
      (List.pairwise_cons.mp hpw_cons).1 p.1 (List.mem_map_of_mem _ hp)
    have hpmem : p ∈ pixelObs layers i j := by
      rw [hsplit]; exact List.mem_append_right _ (List.mem_cons_of_mem _ hp)
    rw [habs1]
    rcases hmin p hpmem hv with h | h | h
    · omega
    · rw [h, habs2]
    · exact le_of_lt h

/-- Claim C3: in `FIRST` mode, at every pixel where at least one layer is
valid (stack sorted ascending by timestamp), the resolver returns the value of
a valid layer whose timestamp is least among the valid ones, paired with that
layer's timestamp.  (`resolve` writes this pair into the result value grid and
the result timestamp grid, see `resolve_ok_at`.) -/
theorem C3_first_takes_earliest (layers : List Layer) (ref : Int) (i j : Nat)
    (hsorted : List.Chain' (· ≤ ·) (layers.map Layer.ts))
    (h : ∃ p ∈ pixelObs layers i j, p.2.isSome = true) :
    ∃ t v, resolvedAt Mode.FIRST ref layers i j = some (t, v) ∧
      (t, some v) ∈ pixelObs layers i j ∧
      ∀ p ∈ pixelObs layers i j, p.2.isSome = true → t ≤ p.1 := by
  obtain ⟨t, v, he⟩ := firstValid_isSome h
  have hpw : List.Pairwise (· ≤ ·) ((pixelObs layers i j).map Prod.fst) := by
    rw [pixelObs_map_fst]
    exact List.chain'_iff_pairwise.mp hsorted
  obtain ⟨hmem, hmin⟩ := firstValid_min hpw he
  exact ⟨t, v, he, hmem, hmin⟩

/-- Claim C4: in `LAST` mode, at every pixel where at least one layer is valid
(stack sorted ascending by timestamp), the resolver returns the value of a
valid layer whose timestamp is greatest among the valid ones, paired with that
layer's timestamp.  (`resolve` writes this pair into the result value grid and
the result timestamp grid, see `resolve_ok_at`.) -/
theorem C4_last_takes_latest (layers : List Layer) (ref : Int) (i j : Nat)
    (hsorted : List.Chain' (· ≤ ·) (layers.map Layer.ts))
    (h : ∃ p ∈ pixelObs layers i j, p.2.isSome = true) :
    ∃ t v, resolvedAt Mode.LAST ref layers i j = some (t, v) ∧
      (t, some v) ∈ pixelObs layers i j ∧
      ∀ p ∈ pixelObs layers i j, p.2.isSome = true → p.1 ≤ t := by
  obtain ⟨t, v, he⟩ := lastValid_isSome h
  have hpw : List.Pairwise (· ≤ ·) ((pixelObs layers i j).map Prod.fst) := by
    rw [pixelObs_map_fst]
    exact List.chain'_iff_pairwise.mp hsorted
  obtain ⟨hmem, hmax⟩ := lastValid_max hpw he
  exact ⟨t, v, he, hmem, hmax⟩

/-- Claim C5: for every mode, on a shape-consistent stack with a reference
time supplied, the resolver completes normally, and at a pixel where no layer
is valid both result grids hold the null value. -/
theorem C5_all_invalid_pixel (mode : Mode) (r : Int) (eh ew : Nat)
    (layers : List Layer) (i j : Nat)
    (hshape : sameShapes layers = true)
    (hinv : ∀ p ∈ pixelObs layers i j, p.2 = none) :
    ∃ res, resolve mode (some r) eh ew layers = .ok res ∧
      gridAt res.values i j = none ∧ gridAt res.timestamps i j = none := by
  cases layers with
  | nil =>
    refine ⟨⟨allInvalid eh ew, allInvalid eh ew⟩, ?_, ?_, ?_⟩
    · unfold resolve
      rw [if_neg (by simp [sameShapes]), if_neg (by simp)]
    · exact gridAt_allInvalid eh ew i j
    · exact gridAt_allInvalid eh ew i j
  | cons L rest =>
    obtain ⟨res, hok, hat⟩ :=
      resolve_ok_at mode (some r) eh ew L rest hshape (by simp)
    have hres : resolvedAt mode ((some r).getD 0) (L :: rest) i j = none :=
      resolvePixel_of_all_none hinv
    refine ⟨res, hok, ?_, ?_⟩
    · rw [(hat i j).1]
      by_cases hb : i < L.grid.length ∧ j < (L.grid.getD i []).length
      · rw [if_pos hb, hres]; rfl
      · rw [if_neg hb]
    · rw [(hat i j).2]
      by_cases hb : i < L.grid.length ∧ j < (L.grid.getD i []).length
      · rw [if_pos hb, hres]; rfl
      · rw [if_neg hb]

/-- Claim C6 (amended): the resolver fails with `ShapeMismatchError` exactly
when the input layers have differing grid shapes; on shape-consistent layers
it fails with `MissingParameterError` exactly when `NEAREST` is invoked
without a reference time (the shape check takes precedence when both
conditions hold); in every failure case no result layer is produced. -/
theorem C6_failure_modes (mode : Mode) (ref? : Option Int) (eh ew : Nat)
    (layers : List Layer) :
    (resolve mode ref? eh ew layers = .error ResolverError.ShapeMismatchError ↔
      sameShapes layers = false) ∧
    (resolve mode ref? eh ew layers = .error ResolverError.MissingParameterError ↔
      sameShapes layers = true ∧ mode = Mode.NEAREST ∧ ref? = none) ∧
    (∀ e res, resolve mode ref? eh ew layers = .error e →
      resolve mode ref? eh ew layers ≠ .ok res) := by
  refine ⟨?_, ?_, ?_⟩
  · by_cases h1 : sameShapes layers = false
    · simp [resolve, h1]
    · rw [Bool.not_eq_false] at h1
      simp only [resolve, h1, Bool.true_eq_false, if_false]
      by_cases h2 : mode = Mode.NEAREST ∧ ref? = none
      · simp [h2]
      · rw [if_neg h2]
        cases layers <;> simp
  · by_cases h1 : sameShapes layers = false
    · simp [resolve, h1]
    · rw [Bool.not_eq_false] at h1
      simp only [resolve, h1, Bool.true_eq_false, if_false]
      by_cases h2 : mode = Mode.NEAREST ∧ ref? = none
      · simp [h1, h2]
      · rw [if_neg h2]
        cases layers <;> simp [h1] <;> tauto
  · intro e res he hok
    rw [he] at hok
    exact Except.noConfusion hok

/-- Claim C6 counterexample: a stack whose two layers have differing grid
shapes, queried in `NEAREST` mode without a reference time.  `NEAREST` is
invoked without a reference time, yet the resolver reports
`ShapeMismatchError` and not `MissingParameterError`, so the claim's
"fails with `MissingParameterError` exactly when `NEAREST` mode is invoked
without a reference_time" is false as stated. -/
theorem C6_overlap_counterexample :
    resolve Mode.NEAREST none 1 1
        [Layer.mk 0 [[some 1]], Layer.mk 1 [[some 1], [some 2]]] =
      .error ResolverError.ShapeMismatchError ∧
    resolve Mode.NEAREST none 1 1
        [Layer.mk 0 [[some 1]], Layer.mk 1 [[some 1], [some 2]]] ≠
      .error ResolverError.MissingParameterError := by
  have h1 : resolve Mode.NEAREST none 1 1
      [Layer.mk 0 [[some 1]], Layer.mk 1 [[some 1], [some 2]]] =
      .error ResolverError.ShapeMismatchError := by rfl
  refine ⟨h1, fun h => ?_⟩
  rw [h1] at h
  simp at h

/-- Claim C7: on an empty observation stack (with a reference time supplied),
the resolver of every mode returns, rather than throwing, an all-invalid
result of the caller-supplied shape `eh × ew`. -/
theorem C7_empty_stack (mode : Mode) (r : Int) (eh ew : Nat) :
    resolve mode (some r) eh ew [] =
      .ok ⟨allInvalid eh ew, allInvalid eh ew⟩ ∧
    (∀ i j, gridAt (allInvalid eh ew) i j = none) ∧
    layerShape (allInvalid eh ew) = List.replicate eh ew := by
  refine ⟨?_, fun i j => gridAt_allInvalid eh ew i j, ?_⟩
  · unfold resolve
    rw [if_neg (by simp [sameShapes]), if_neg (by simp)]
  · simp [layerShape, allInvalid]

/-- Claim C8: the resolver's output at a pixel depends only on that pixel's
data: two stacks of equal length whose layers agree at pixel `(i, j)` in
timestamp and in value-or-invalidity resolve identically at `(i, j)`, whatever
their other pixels hold. -/
theorem C8_pixel_noninterference (mode : Mode) (ref : Int)
    (layers1 layers2 : List Layer) (i j : Nat)
    (hlen : layers1.length = layers2.length)
    (hagree : ∀ k, k < layers1.length →
      (layers1.getD k ⟨0, []⟩).ts = (layers2.getD k ⟨0, []⟩).ts ∧
      gridAt (layers1.getD k ⟨0, []⟩).grid i j =
        gridAt (layers2.getD k ⟨0, []⟩).grid i j) :
    resolvedAt mode ref layers1 i j = resolvedAt mode ref layers2 i j := by
  have hobs : pixelObs layers1 i j = pixelObs layers2 i j := by
    apply List.ext_getElem
    · simp [pixelObs, hlen]
    · intro n h1 h2
      simp only [pixelObs, List.length_map] at h1 h2
      simp only [pixelObs, List.getElem_map]
      obtain ⟨hts, hg⟩ := hagree n h1
      rw [List.getD_eq_getElem _ _ h1, List.getD_eq_getElem _ _ h2] at hts hg
      rw [hts, hg]
  unfold resolvedAt
  rw [hobs]

/-! ### Lemmas about the masking steps -/

theorem cloudMaskBand_at (qa : List (List (List Nat)))
    (b : List (List (List Int))) (t y x : Nat)
    (ht : t < b.length) (hy : y < (b.getD t []).length)
    (hx : x < ((b.getD t []).getD y []).length) :
    arrAt (cloudMaskBand qa b) t y x =
      if ((qa.getD t []).getD y []).getD x 0 ∈ mask_val then none
      else some (bandAt b t y x) := by
  unfold arrAt cloudMaskBand
  rw [getD_range_map, if_pos ht, getD_range_map, if_pos hy,
    getD_range_map, if_pos hx]
  rfl

theorem cloudMaskBand_masked (qa : List (List (List Nat)))
    (b : List (List (List Int))) (t y x : Nat)
    (hq : ((qa.getD t []).getD y []).getD x 0 ∈ mask_val) :
    arrAt (cloudMaskBand qa b) t y x = none := by
  unfold arrAt cloudMaskBand
  rw [getD_range_map]
  by_cases ht : t < b.length
  · rw [if_pos ht, getD_range_map]
    by_cases hy : y < (b.getD t []).length
    · rw [if_pos hy, getD_range_map]
      by_cases hx : x < ((b.getD t []).getD y []).length
      · rw [if_pos hx, if_pos hq]
      · rw [if_neg hx]
    · rw [if_neg hy]
      rfl
  · rw [if_neg ht]
    rfl

theorem arrAt_isSome_bounds {a : Arr3} {t y x : Nat}
    (h : (arrAt a t y x).isSome = true) :
    t < a.length ∧ y < (a.getD t []).length ∧
      x < ((a.getD t []).getD y []).length := by
  by_cases ht : t < a.length
  · by_cases hy : y < (a.getD t []).length
    · by_cases hx : x < ((a.getD t []).getD y []).length
      · exact ⟨ht, hy, hx⟩
      · unfold arrAt at h
        rw [List.getD_eq_default _ _ (le_of_not_lt hx)] at h
        simp at h
    · unfold arrAt at h
      rw [List.getD_eq_default _ _ (le_of_not_lt hy)] at h
      simp [List.getD] at h
  · unfold arrAt at h
    rw [List.getD_eq_default _ _ (le_of_not_lt ht)] at h
    simp [List.getD] at h

theorem maskVar_at (vars : List Arr3) (a : Arr3) (t y x : Nat) :
    arrAt (maskVar vars a) t y x =
      if t < a.length ∧ y < (a.getD t []).length ∧
          x < ((a.getD t []).getD y []).length then
        (if no_data_mask vars t y x then none else arrAt a t y x)
      else none := by
  conv_lhs => rw [arrAt, maskVar]
  rw [getD_range_map]
  by_cases ht : t < a.length
  · rw [if_pos ht, getD_range_map]
    by_cases hy : y < (a.getD t []).length
    · rw [if_pos hy, getD_range_map]
      by_cases hx : x < ((a.getD t []).getD y []).length
      · rw [if_pos hx, if_pos (And.intro ht (And.intro hy hx))]
      · rw [if_neg hx, if_neg (by tauto)]
    · rw [if_neg hy, if_neg (by tauto)]
      rfl
  · rw [if_neg ht, if_neg (by tauto)]
    rfl

/-- After the no-data masking pass, validity at a slot is uniform across
variables: if one masked variable is valid at `(t, y, x)`, so is any other. -/
theorem maskVar_uniform (vars : List Arr3) {a b : Arr3}
    (hb : b ∈ vars) (t y x : Nat)
    (h : (arrAt (maskVar vars a) t y x).isSome = true) :
    (arrAt (maskVar vars b) t y x).isSome = true := by
  rw [maskVar_at] at h
  by_cases hba : t < a.length ∧ y < (a.getD t []).length ∧
      x < ((a.getD t []).getD y []).length
  · rw [if_pos hba] at h
    by_cases hm : no_data_mask vars t y x
    · rw [if_pos hm] at h
      simp at h
    · have hm' : no_data_mask vars t y x = false := by
        revert hm; cases no_data_mask vars t y x <;> simp
      have hnull : isnullAt b t y x = false := by
        by_contra hc
        have : no_data_mask vars t y x = true := by
          unfold no_data_mask
          rw [List.any_eq_true]
          exact ⟨b, hb, by revert hc; cases isnullAt b t y x <;> simp⟩
        rw [this] at hm'
        exact Bool.noConfusion hm'
      have hbsome : (arrAt b t y x).isSome = true := by
        unfold isnullAt at hnull
        revert hnull
        cases arrAt b t y x <;> simp
      obtain ⟨hbt, hby, hbx⟩ := arrAt_isSome_bounds hbsome
      rw [maskVar_at, if_pos ⟨hbt, hby, hbx⟩, if_neg (by rw [hm']; simp)]
      exact hbsome
  · rw [if_neg hba] at h
    simp at h

/-- Two observation series over the same timestamps with slot-wise identical
validity yield `LAST` results with identical timestamp (and presence). -/
theorem lastValid_fst_congr {l1 l2 : List (Int × Option Int)}
    (h : List.Forall₂ (fun p q => p.1 = q.1 ∧ p.2.isSome = q.2.isSome) l1 l2) :
    (lastValid l1).map Prod.fst = (lastValid l2).map Prod.fst := by
  induction h with
  | nil => rfl
  | @cons a1 a2 t1 t2 hpq hrest ih =>
    obtain ⟨ta, xa⟩ := a1
    obtain ⟨tb, xb⟩ := a2
    obtain ⟨hts, hval⟩ := hpq
    simp only at hts hval
    cases xa with
    | none =>
      cases xb with
      | none => simpa [lastValid] using ih
      | some vb => simp at hval
    | some va =>
      cases xb with
      | none => simp at hval
      | some vb =>
        simp only [lastValid]
        cases hA : lastValid t1 with
        | none =>
          cases hB : lastValid t2 with
          | none => simp [hts]
          | some q => rw [hA, hB] at ih; simp at ih
        | some p =>
          cases hB : lastValid t2 with
          | none => rw [hA, hB] at ih; simp at ih
          | some q =>
            rw [hA, hB] at ih
            simpa using ih

/-- Two observation series over the same timestamps with slot-wise identical
validity yield `NEAREST` results with identical timestamp (and presence). -/
theorem nearestValid_fst_congr (ref : Int) {l1 l2 : List (Int × Option Int)}
    (h : List.Forall₂ (fun p q => p.1 = q.1 ∧ p.2.isSome = q.2.isSome) l1 l2) :
    (nearestValid ref l1).map Prod.fst = (nearestValid ref l2).map Prod.fst := by
  induction h with
  | nil => rfl
  | @cons a1 a2 t1 t2 hpq hrest ih =>
    obtain ⟨ta, xa⟩ := a1
    obtain ⟨tb, xb⟩ := a2
    obtain ⟨hts, hval⟩ := hpq
    simp only at hts hval
    cases xa with
    | none =>
      cases xb with
      | none => simpa [nearestValid] using ih
      | some vb => simp at hval
    | some va =>
      cases xb with
      | none => simp at hval
      | some vb =>
        simp only [nearestValid]
        cases hA : nearestValid ref t1 with
        | none =>
          cases hB : nearestValid ref t2 with
          | none => simp [hts]
          | some q => rw [hA, hB] at ih; simp at ih
        | some p =>
          cases hB : nearestValid ref t2 with
          | none => rw [hA, hB] at ih; simp at ih
          | some q =>
            obtain ⟨u, w⟩ := p
            obtain ⟨u2, w2⟩ := q
            rw [hA, hB] at ih
            simp at ih
            by_cases hc : |u2 - ref| < |tb - ref|
            · simp [hts, ih, hc]
            · simp [hts, ih, hc]

/-! ### Claims about the notebook's masking code -/

/-- Claim C9: for every band of the dataset and every in-range
(time, y, x) slot, the cloud-masked `data_clean` holds the loaded value
unchanged exactly when the slot's `qa_pixel` value is not one of the 11
listed mask values, holds null exactly when it is, and a masked `qa_pixel`
value nulls every band of the dataset at that slot simultaneously. -/
theorem C9_cloud_mask (d : RawData) (name : String)
    (b : List (List (List Int))) (hmem : (name, b) ∈ d.bands) (t y x : Nat)
    (ht : t < b.length) (hy : y < (b.getD t []).length)
    (hx : x < ((b.getD t []).getD y []).length) :
    (name, cloudMaskBand d.qa_pixel b) ∈ data_clean d ∧
    (arrAt (cloudMaskBand d.qa_pixel b) t y x = some (bandAt b t y x) ↔
      qaAt d t y x ∉ mask_val) ∧
    (arrAt (cloudMaskBand d.qa_pixel b) t y x = none ↔
      qaAt d t y x ∈ mask_val) ∧
    (∀ nb ∈ d.bands, qaAt d t y x ∈ mask_val →
      arrAt (cloudMaskBand d.qa_pixel nb.2) t y x = none) := by
  refine ⟨?_, ?_, ?_, ?_⟩
  · exact List.mem_map_of_mem
      (fun nb => (nb.1, cloudMaskBand d.qa_pixel nb.2)) hmem
  · rw [cloudMaskBand_at d.qa_pixel b t y x ht hy hx]
    unfold qaAt
    by_cases hq : ((d.qa_pixel.getD t []).getD y []).getD x 0 ∈ mask_val
    · rw [if_pos hq]
      exact iff_of_false (by simp) (not_not_intro hq)
    · rw [if_neg hq]
      exact iff_of_true rfl hq
  · rw [cloudMaskBand_at d.qa_pixel b t y x ht hy hx]
    unfold qaAt
    by_cases hq : ((d.qa_pixel.getD t []).getD y []).getD x 0 ∈ mask_val
    · rw [if_pos hq]
      exact iff_of_true rfl hq
    · rw [if_neg hq]
      exact iff_of_false (by simp) hq
  · intro nb _ hq
    unfold qaAt at hq
    exact cloudMaskBand_masked d.qa_pixel nb.2 t y x hq

/-- Claim C10: after the no-data masking step (`da.where(~no_data_mask)`),
every (time, y, x) slot of the stacked array is valid in all variables or
invalid in all variables; consequently, per-band `LAST` and `NEAREST`
reductions over the shared timestamps draw every variable's value at a pixel
from the same timestamp. -/
theorem C10_no_data_mask_uniform (vars : List Arr3) (ts : List Int) (ref : Int)
    (y x : Nat) (a b : Arr3) (ha : a ∈ vars) (hb : b ∈ vars) :
    (∀ t y2 x2, (arrAt (maskVar vars a) t y2 x2).isSome =
      (arrAt (maskVar vars b) t y2 x2).isSome) ∧
    (lastValid (bandObs ts (maskVar vars a) y x)).map Prod.fst =
      (lastValid (bandObs ts (maskVar vars b) y x)).map Prod.fst ∧
    (nearestValid ref (bandObs ts (maskVar vars a) y x)).map Prod.fst =
      (nearestValid ref (bandObs ts (maskVar vars b) y x)).map Prod.fst := by
  have huni : ∀ t y2 x2, (arrAt (maskVar vars a) t y2 x2).isSome =
      (arrAt (maskVar vars b) t y2 x2).isSome := by
    intro t y2 x2
    by_cases hA : (arrAt (maskVar vars a) t y2 x2).isSome = true
    · rw [hA, maskVar_uniform vars hb t y2 x2 hA]
    · by_cases hB : (arrAt (maskVar vars b) t y2 x2).isSome = true
      · exact absurd (maskVar_uniform vars ha t y2 x2 hB) hA
      · rw [Bool.not_eq_true] at hA hB
        rw [hA, hB]
  have hfa : List.Forall₂ (fun p q => p.1 = q.1 ∧ p.2.isSome = q.2.isSome)
      (bandObs ts (maskVar vars a) y x) (bandObs ts (maskVar vars b) y x) := by
    unfold bandObs
    rw [List.forall₂_map_left_iff, List.forall₂_map_right_iff,
      List.forall₂_same]
    intro t _
    exact ⟨rfl, huni t y x⟩
  exact ⟨huni, lastValid_fst_congr hfa, nearestValid_fst_congr ref hfa⟩

/-! ### Concrete witnesses -/

/-- Concrete instantiation of `C1_nearest_minimizes`: two valid layers at
timestamps 0 and 4, reference time 3. -/
theorem C1_witness :
    (∃ p ∈ pixelObs [Layer.mk 0 [[some 10]], Layer.mk 4 [[some 20]]] 0 0,
      p.2.isSome = true) ∧
    ∃ t v, resolvedAt Mode.NEAREST 3
        [Layer.mk 0 [[some 10]], Layer.mk 4 [[some 20]]] 0 0 = some (t, v) ∧
      (t, some v) ∈
        pixelObs [Layer.mk 0 [[some 10]], Layer.mk 4 [[some 20]]] 0 0 ∧
      ∀ p ∈ pixelObs [Layer.mk 0 [[some 10]], Layer.mk 4 [[some 20]]] 0 0,
        p.2.isSome = true → |t - 3| ≤ |p.1 - 3| :=
  ⟨by decide, C1_nearest_minimizes _ 3 0 0 (by decide)⟩

/-- Concrete instantiation of `C2_tie_prefers_earlier`: layers at 0 and 4,
reference time 2, both valid: the earlier layer (timestamp 0) wins. -/
theorem C2_witness :
    List.Chain' (· < ·)
      (([Layer.mk 0 [[some 10]], Layer.mk 4 [[some 20]]]).map Layer.ts) ∧
    ((0, some 10) ∈
      pixelObs [Layer.mk 0 [[some 10]], Layer.mk 4 [[some 20]]] 0 0) ∧
    ((4, some 20) ∈
      pixelObs [Layer.mk 0 [[some 10]], Layer.mk 4 [[some 20]]] 0 0) ∧
    ((0 : Int) < 2) ∧ ((2 : Int) < 4) ∧ ((2 - 0 : Int) = 4 - 2) ∧
    (∀ p ∈ pixelObs [Layer.mk 0 [[some 10]], Layer.mk 4 [[some 20]]] 0 0,
      p.2.isSome = true → p.1 = 0 ∨ p.1 = 4 ∨ (2 - 0 : Int) < |p.1 - 2|) ∧
    resolvedAt Mode.NEAREST 2
      [Layer.mk 0 [[some 10]], Layer.mk 4 [[some 20]]] 0 0 = some (0, 10) :=
  ⟨by simp [List.chain'_cons], by decide, by decide, by decide, by decide,
    by decide, by decide,
    C2_tie_prefers_earlier _ 2 0 4 10 20 0 0 (by simp [List.chain'_cons])
      (by decide) (by decide) (by decide) (by decide) (by decide) (by decide)⟩

/-- Concrete instantiation of `C3_first_takes_earliest`: the layer at
timestamp 0 is invalid at the pixel, so `FIRST` takes the one at 5. -/
theorem C3_witness :
    List.Chain' (· ≤ ·)
      (([Layer.mk 0 [[none]], Layer.mk 5 [[some 7]]]).map Layer.ts) ∧
    (∃ p ∈ pixelObs [Layer.mk 0 [[none]], Layer.mk 5 [[some 7]]] 0 0,
      p.2.isSome = true) ∧
    ∃ t v, resolvedAt Mode.FIRST 0
        [Layer.mk 0 [[none]], Layer.mk 5 [[some 7]]] 0 0 = some (t, v) ∧
      (t, some v) ∈ pixelObs [Layer.mk 0 [[none]], Layer.mk 5 [[some 7]]] 0 0 ∧
      ∀ p ∈ pixelObs [Layer.mk 0 [[none]], Layer.mk 5 [[some 7]]] 0 0,
        p.2.isSome = true → t ≤ p.1 :=
  ⟨by simp [List.chain'_cons], by decide,
    C3_first_takes_earliest _ 0 0 0 (by simp [List.chain'_cons]) (by decide)⟩

/-- Concrete instantiation of `C4_last_takes_latest`: both layers valid, so
`LAST` takes the one at timestamp 5. -/
theorem C4_witness :
    List.Chain' (· ≤ ·)
      (([Layer.mk 0 [[some 3]], Layer.mk 5 [[some 7]]]).map Layer.ts) ∧
    (∃ p ∈ pixelObs [Layer.mk 0 [[some 3]], Layer.mk 5 [[some 7]]] 0 0,
      p.2.isSome = true) ∧
    ∃ t v, resolvedAt Mode.LAST 0
        [Layer.mk 0 [[some 3]], Layer.mk 5 [[some 7]]] 0 0 = some (t, v) ∧
      (t, some v) ∈
        pixelObs [Layer.mk 0 [[some 3]], Layer.mk 5 [[some 7]]] 0 0 ∧
      ∀ p ∈ pixelObs [Layer.mk 0 [[some 3]], Layer.mk 5 [[some 7]]] 0 0,
        p.2.isSome = true → p.1 ≤ t :=
  ⟨by simp [List.chain'_cons], by decide,
    C4_last_takes_latest _ 0 0 0 (by simp [List.chain'_cons]) (by decide)⟩

/-- Concrete instantiation of `C5_all_invalid_pixel`: a one-layer stack whose
only pixel is invalid. -/
theorem C5_witness :
    sameShapes [Layer.mk 0 [[none]]] = true ∧
    (∀ p ∈ pixelObs [Layer.mk 0 [[none]]] 0 0, p.2 = none) ∧
    ∃ res, resolve Mode.LAST (some 0) 1 1 [Layer.mk 0 [[none]]] = .ok res ∧
      gridAt res.values 0 0 = none ∧ gridAt res.timestamps 0 0 = none :=
  ⟨by decide, by decide,
    C5_all_invalid_pixel Mode.LAST 0 1 1 _ 0 0 (by decide) (by decide)⟩

/-- Concrete instantiation of `C8_pixel_noninterference`: two stacks that
agree at pixel (0, 0) but differ at pixel (0, 1). -/
theorem C8_witness :
    ([Layer.mk 0 [[some 1, some 9]], Layer.mk 5 [[none, some 8]]].length =
      [Layer.mk 0 [[some 1, none]], Layer.mk 5 [[none, some 7]]].length) ∧
    (∀ k, k < [Layer.mk 0 [[some 1, some 9]],
        Layer.mk 5 [[none, some 8]]].length →
      (([Layer.mk 0 [[some 1, some 9]],
          Layer.mk 5 [[none, some 8]]].getD k (Layer.mk 0 [])).ts =
        ([Layer.mk 0 [[some 1, none]],
          Layer.mk 5 [[none, some 7]]].getD k (Layer.mk 0 [])).ts) ∧
      gridAt ([Layer.mk 0 [[some 1, some 9]],
          Layer.mk 5 [[none, some 8]]].getD k (Layer.mk 0 [])).grid 0 0 =
        gridAt ([Layer.mk 0 [[some 1, none]],
          Layer.mk 5 [[none, some 7]]].getD k (Layer.mk 0 [])).grid 0 0) ∧
    resolvedAt Mode.NEAREST 1
        [Layer.mk 0 [[some 1, some 9]], Layer.mk 5 [[none, some 8]]] 0 0 =
      resolvedAt Mode.NEAREST 1
        [Layer.mk 0 [[some 1, none]], Layer.mk 5 [[none, some 7]]] 0 0 :=
  ⟨by decide, by decide,
    C8_pixel_noninterference Mode.NEAREST 1 _ _ 0 0 (by decide) (by decide)⟩

/-- Concrete instantiation of `C9_cloud_mask`: `qa_pixel` is 21762 (masked) at
x = 0 and 5 (unmasked) at x = 1; the dataset has two bands. -/
theorem C9_witness :
    (("green", [[[(10 : Int), 11]]]) ∈
      (RawData.mk [[[21762, 5]]]
        [("green", [[[10, 11]]]), ("red", [[[20, 21]]])]).bands) ∧
    (0 < ([[[(10 : Int), 11]]]).length) ∧
    (0 < (([[[(10 : Int), 11]]]).getD 0 []).length) ∧
    (0 < ((([[[(10 : Int), 11]]]).getD 0 []).getD 0 []).length) ∧
    (("green", cloudMaskBand [[[21762, 5]]] [[[(10 : Int), 11]]]) ∈
      data_clean (RawData.mk [[[21762, 5]]]
        [("green", [[[10, 11]]]), ("red", [[[20, 21]]])]) ∧
    (arrAt (cloudMaskBand [[[21762, 5]]] [[[(10 : Int), 11]]]) 0 0 0 =
        some (bandAt [[[(10 : Int), 11]]] 0 0 0) ↔
      qaAt (RawData.mk [[[21762, 5]]]
        [("green", [[[10, 11]]]), ("red", [[[20, 21]]])]) 0 0 0 ∉ mask_val) ∧
    (arrAt (cloudMaskBand [[[21762, 5]]] [[[(10 : Int), 11]]]) 0 0 0 = none ↔
      qaAt (RawData.mk [[[21762, 5]]]
        [("green", [[[10, 11]]]), ("red", [[[20, 21]]])]) 0 0 0 ∈ mask_val) ∧
    (∀ nb ∈ (RawData.mk [[[21762, 5]]]
        [("green", [[[10, 11]]]), ("red", [[[20, 21]]])]).bands,
      qaAt (RawData.mk [[[21762, 5]]]
        [("green", [[[10, 11]]]), ("red", [[[20, 21]]])]) 0 0 0 ∈ mask_val →
      arrAt (cloudMaskBand [[[21762, 5]]] nb.2) 0 0 0 = none)) :=
  ⟨List.mem_cons_self _ _, by decide, by decide, by decide,
    C9_cloud_mask _ "green" _ (List.mem_cons_self _ _) 0 0 0
      (by decide) (by decide) (by decide)⟩

/-- Concrete instantiation of `C10_no_data_mask_uniform`: two variables over
two time steps; the first variable is null at (t=0, x=1) and (t=1, x=0). -/
theorem C10_witness :
    (([[[some 1, none]], [[none, some 4]]] : Arr3) ∈
      [([[[some 1, none]], [[none, some 4]]] : Arr3),
       ([[[some 2, some 3]], [[some 5, some 6]]] : Arr3)]) ∧
    (([[[some 2, some 3]], [[some 5, some 6]]] : Arr3) ∈
      [([[[some 1, none]], [[none, some 4]]] : Arr3),
       ([[[some 2, some 3]], [[some 5, some 6]]] : Arr3)]) ∧
    ((∀ t y2 x2,
      (arrAt (maskVar
        [([[[some 1, none]], [[none, some 4]]] : Arr3),
         ([[[some 2, some 3]], [[some 5, some 6]]] : Arr3)]
        ([[[some 1, none]], [[none, some 4]]] : Arr3)) t y2 x2).isSome =
      (arrAt (maskVar
        [([[[some 1, none]], [[none, some 4]]] : Arr3),
         ([[[some 2, some 3]], [[some 5, some 6]]] : Arr3)]
        ([[[some 2, some 3]], [[some 5, some 6]]] : Arr3)) t y2 x2).isSome) ∧
    (lastValid (bandObs [10, 20] (maskVar
        [([[[some 1, none]], [[none, some 4]]] : Arr3),
         ([[[some 2, some 3]], [[some 5, some 6]]] : Arr3)]
        ([[[some 1, none]], [[none, some 4]]] : Arr3)) 0 0)).map Prod.fst =
      (lastValid (bandObs [10, 20] (maskVar
        [([[[some 1, none]], [[none, some 4]]] : Arr3),
         ([[[some 2, some 3]], [[some 5, some 6]]] : Arr3)]
        ([[[some 2, some 3]], [[some 5, some 6]]] : Arr3)) 0 0)).map Prod.fst ∧
    (nearestValid 15 (bandObs [10, 20] (maskVar
        [([[[some 1, none]], [[none, some 4]]] : Arr3),
         ([[[some 2, some 3]], [[some 5, some 6]]] : Arr3)]
        ([[[some 1, none]], [[none, some 4]]] : Arr3)) 0 0)).map Prod.fst =
      (nearestValid 15 (bandObs [10, 20] (maskVar
        [([[[some 1, none]], [[none, some 4]]] : Arr3),
         ([[[some 2, some 3]], [[some 5, some 6]]] : Arr3)]
        ([[[some 2, some 3]], [[some 5, some 6]]] : Arr3)) 0 0)).map Prod.fst) :=
  ⟨by decide, by decide,
    C10_no_data_mask_uniform _ [10, 20] 15 0 0 _ _ (by decide) (by decide)⟩

end Composites
